import Mathlib

/-
Verification of the HTML-to-constrained-markup rendering pipeline of
w4tty.py: a shallow embedding of the alignment resolver
(_extract_alignment), the inline renderer (_render_node), the block
renderer (_render_blocks_from_node), the story-id parser
(extract_story_id) and the network/failure event order of main.
Strings are embedded as List Char (Python str is a sequence of code
points).  Lowercasing is embedded for the ASCII range, which is the
range exercised by the tag names, style declarations and class names
the code inspects.
-/

/-- Whitespace code points stripped by Python str.strip (the str.isspace set). -/
def wsChars : List Char :=
  [' ', '\t', '\n', '\r', '\x0b', '\x0c', '\x1c', '\x1d', '\x1e', '\x1f',
   '\x85', '\xa0', '\u1680', '\u2000', '\u2001', '\u2002', '\u2003', '\u2004',
   '\u2005', '\u2006', '\u2007', '\u2008', '\u2009', '\u200a', '\u2028',
   '\u2029', '\u202f', '\u205f', '\u3000']

def pyIsSpace (c : Char) : Bool := wsChars.contains c

/-- Embeds Python str.strip(): drop whitespace from both ends. -/
def pyStrip (l : List Char) : List Char :=
  ((l.dropWhile pyIsSpace).reverse.dropWhile pyIsSpace).reverse

/-- Embeds str.lower on the ASCII range. -/
def lowerL (l : List Char) : List Char := l.map Char.toLower

def isPrefixL : List Char → List Char → Bool
  | [], _ => true
  | _ :: _, [] => false
  | a :: as, b :: bs => a == b && isPrefixL as bs

/-- Embeds the Python substring test (needle in haystack). -/
def containsSub (needle : List Char) : List Char → Bool
  | [] => needle.isEmpty
  | c :: cs => isPrefixL needle (c :: cs) || containsSub needle cs

/-- Embeds str.split(sep) for a one-character separator. -/
def splitOnChar (sep : Char) : List Char → List (List Char)
  | [] => [[]]
  | c :: cs =>
    let r := splitOnChar sep cs
    if c = sep then [] :: r
    else
      match r with
      | [] => [[c]]
      | h :: t => (c :: h) :: t

/-- Embeds the third component of str.partition of a colon: the text after the first colon, or empty when there is none. -/
def afterColon (l : List Char) : List Char :=
  (l.dropWhile (fun c => c != ':')).drop 1

/-- Python truthiness of an optional string attribute: absent and empty are falsy. -/
def truthy : Option (List Char) → Bool
  | none => false
  | some s => !s.isEmpty

/-- Embeds the pattern (attr or ""). -/
def orEmpty : Option (List Char) → List Char
  | none => []
  | some s => s

/-- Embeds html.escape(text, quote=False): replace each ampersand, less-than and greater-than by its entity, leaving quotes alone. -/
def escapeText : List Char → List Char
  | [] => []
  | c :: cs =>
    (if c = '&' then ("&amp;".data)
     else if c = '<' then ("&lt;".data)
     else if c = '>' then ("&gt;".data)
     else [c]) ++ escapeText cs

/-- Embeds html.escape(value, quote=True), used on attribute values. -/
def escapeAttr : List Char → List Char
  | [] => []
  | c :: cs =>
    (if c = '&' then ("&amp;".data)
     else if c = '<' then ("&lt;".data)
     else if c = '>' then ("&gt;".data)
     else if c = '"' then ("&quot;".data)
     else if c = '\'' then ("&#x27;".data)
     else [c]) ++ escapeAttr cs

/-- Membership in the Yi syllables block, the character class of YI_RANGE_PATTERN. -/
def isYi (c : Char) : Bool := decide (0xA000 ≤ c.toNat ∧ c.toNat ≤ 0xA48F)

def yiFontOpen : List Char := "<font face=\"NotoSansYi\">".data

def yiFontClose : List Char := "</font>".data

/-- Worker for the regex substitution: acc is the Yi run currently being accumulated; a maximal run is flushed inside a font tag when a non-Yi character or the end of input is reached. -/
def wrap_yi_go : List Char → List Char → List Char
  | acc, [] => if acc.isEmpty then [] else yiFontOpen ++ acc ++ yiFontClose
  | acc, c :: cs =>
    if isYi c then wrap_yi_go (acc ++ [c]) cs
    else (if acc.isEmpty then [] else yiFontOpen ++ acc ++ yiFontClose) ++ c :: wrap_yi_go [] cs

/-- Embeds _wrap_yi_sequences: YI_RANGE_PATTERN.sub wraps every maximal contiguous Yi run in a NotoSansYi font tag. -/
def wrap_yi_sequences (l : List Char) : List Char := wrap_yi_go [] l

/-- The attributes the pipeline reads off a tag; absent attributes are none, and class is multi-valued as in BeautifulSoup. -/
structure Attrs where
  style : Option (List Char)
  classes : List (List Char)
  align : Option (List Char)
  href : Option (List Char)
  face : Option (List Char)
  dataFont : Option (List Char)
  color : Option (List Char)

def noAttrs : Attrs := ⟨none, [], none, none, none, none, none⟩

/-- A parsed tree node: a NavigableString text leaf or a Tag with attributes and ordered children. -/
inductive Node where
  | text (s : List Char)
  | elem (name : List Char) (attrs : Attrs) (children : List Node)

/-- Embeds the ALIGN_VALUE_MAP dictionary lookup (None when the key is absent). -/
def lookupAV (v : List Char) : Option (List Char) :=
  if v = ("left".data) then some ("L".data)
  else if v = ("center".data) then some ("C".data)
  else if v = ("right".data) then some ("R".data)
  else if v = ("justify".data) then some ("J".data)
  else none

/-- Embeds ALIGN_WORD_MAP.get(v, "left"). -/
def alignWordOf (v : List Char) : List Char :=
  if v = ("L".data) then ("left".data)
  else if v = ("C".data) then ("center".data)
  else if v = ("R".data) then ("right".data)
  else if v = ("J".data) then ("justify".data)
  else ("left".data)

/-- The style-segment loop of _extract_alignment: the first stripped segment that starts with text-align and whose value after the colon is recognized wins; unrecognized segments are skipped. -/
def styleAlignScan : List (List Char) → Option (List Char)
  | [] => none
  | seg0 :: rest =>
    let seg := pyStrip seg0
    if isPrefixL ("text-align".data) seg then
      let value := pyStrip (afterColon seg)
      match lookupAV value with
      | some v => some v
      | none => styleAlignScan rest
    else styleAlignScan rest

/-- The class loop of _extract_alignment: each lowered class token is tested for the substrings center, right, justify in that order; the loop falls through to "L". -/
def classScan : List (List Char) → List Char
  | [] => "L".data
  | cls :: rest =>
    if containsSub ("center".data) cls then ("C".data)
    else if containsSub ("right".data) cls then ("R".data)
    else if containsSub ("justify".data) cls then ("J".data)
    else classScan rest

/-- Embeds _extract_alignment. -/
def extract_alignment (attrs : Attrs) : List Char :=
  let style_value := lowerL (orEmpty attrs.style)
  match styleAlignScan (splitOnChar ';' style_value) with
  | some v => v
  | none =>
    let align_attr := lowerL (orEmpty attrs.align)
    match lookupAV align_attr with
    | some v => v
    | none => classScan (attrs.classes.map lowerL)

/-- The caller-side fallback in _render_blocks_from_node: an extracted "L" is replaced by the inherited alignment. -/
def resolved_align (attrs : Attrs) (inherited : List Char) : List Char :=
  let a := extract_alignment attrs
  if a = ("L".data) then inherited else a

/-- The align attribute fragment built in _render_blocks_from_node: empty exactly when the resolved alignment is "L". -/
def align_attr_of (node_align : List Char) : List Char :=
  if node_align ≠ ("L".data) then (" align=\"".data) ++ alignWordOf node_align ++ ("\"".data) else []

/-- The apply_wrapper helper of _render_node. -/
def tagWrap (t : List Char) (content : List Char) : List Char :=
  ("<".data) ++ t ++ (">".data) ++ content ++ ("</".data) ++ t ++ (">".data)

mutual
/-- Embeds _render_node: escape a text leaf and tag its Yi runs, render br and hr directly, otherwise concatenate the children and apply the conditional wrappers in source order. -/
def render_node : Node → List Char
  | .text s =>
    if s.isEmpty then []
    else
      let text := s.map (fun c => if c = '\xa0' then ' ' else c)
      let escaped := escapeText text
      wrap_yi_sequences escaped
  | .elem nameRaw attrs children =>
    let name := lowerL nameRaw
    if name = ("br".data) then ("<br/>".data)
    else if name = ("hr".data) then ("<hr/>".data)
    else
      let inner0 := render_children children
      if inner0.isEmpty ∧ name ≠ ("img".data) then []
      else
        let style_attr := lowerL (orEmpty attrs.style)
        let classes := attrs.classes.map lowerL
        let i1 := if name = ("b".data) ∨ name = ("strong".data) then tagWrap ("b".data) inner0 else inner0
        let i2 := if name = ("i".data) ∨ name = ("em".data) then tagWrap ("i".data) i1 else i1
        let i3 := if name = ("u".data) then tagWrap ("u".data) i2 else i2
        let i4 := if name = ("sup".data) ∨ name = ("sub".data) then tagWrap name i3 else i3
        let i5 := if containsSub ("font-weight".data) style_attr ∧ containsSub ("bold".data) style_attr then tagWrap ("b".data) i4 else i4
        let i6 := if containsSub ("font-style".data) style_attr ∧ containsSub ("italic".data) style_attr then tagWrap ("i".data) i5 else i5
        let i7 := if containsSub ("text-decoration".data) style_attr ∧ containsSub ("underline".data) style_attr then tagWrap ("u".data) i6 else i6
        let i8 := if classes.any (fun c => containsSub ("bold".data) c) then tagWrap ("b".data) i7 else i7
        let i9 := if classes.any (fun c => containsSub ("italic".data) c) then tagWrap ("i".data) i8 else i8
        let i10 := if classes.any (fun c => containsSub ("underline".data) c) then tagWrap ("u".data) i9 else i9
        let i11 := if name = ("a".data) ∧ truthy attrs.href then
            ("<a href=\"".data) ++ escapeAttr (orEmpty attrs.href) ++ ("\">".data) ++ i10 ++ ("</a>".data)
          else i10
        let font_face0 := if truthy attrs.face then attrs.face else attrs.dataFont
        let font_face := if ¬truthy font_face0 ∧ name = ("span".data) ∧ truthy attrs.dataFont then attrs.dataFont else font_face0
        let i12 := if truthy font_face then
            ("<font face=\"".data) ++ escapeAttr (orEmpty font_face) ++ ("\">".data) ++ i11 ++ ("</font>".data)
          else i11
        let i13 := if name = ("font".data) ∧ truthy attrs.color then
            ("<font color=\"".data) ++ escapeAttr (orEmpty attrs.color) ++ ("\">".data) ++ i12 ++ ("</font>".data)
          else i12
        i13
/-- The child concatenation loops of _render_node and _render_inline_children. -/
def render_children : List Node → List Char
  | [] => []
  | c :: cs => render_node c ++ render_children cs
end

/-- Embeds _render_inline_children applied to a tag with the given children. -/
def render_inline_children (children : List Node) : List Char := render_children children

/-- Embeds the str.join over assembled list items. -/
def joinL : List (List Char) → List Char
  | [] => []
  | x :: xs => x ++ joinL xs

/-- The list-item loop of the ul/ol branch: find_all("li", recursive=False) over the direct children, keeping the items whose stripped inline rendering is non-empty, in source order. -/
def li_items : List Node → List (List Char)
  | [] => []
  | .text _ :: rest => li_items rest
  | .elem n _ cs :: rest =>
    if n = ("li".data) then
      let item_inner := pyStrip (render_inline_children cs)
      if ¬item_inner.isEmpty then (("<li>".data) ++ item_inner ++ ("</li>".data)) :: li_items rest
      else li_items rest
    else li_items rest

/-- The shared paragraph rule of _render_blocks_from_node: lines 305-308, also reached by p/section/article at lines 271-275 with the same text. -/
def fallback_para (align_attr : List Char) (children : List Node) : List (List Char) :=
  let inner := pyStrip (render_inline_children children)
  if ¬inner.isEmpty then [("<p".data) ++ align_attr ++ (">".data) ++ inner ++ ("</p>".data)] else []

mutual
/-- Embeds _render_blocks_from_node.  A div whose children produce no blocks falls through to the generic paragraph rule, as in the source where the div branch only returns when child_blocks is non-empty. -/
def render_blocks_from_node : Node → List Char → List (List Char)
  | .text s, inherited_align =>
    let content := pyStrip (render_node (.text s))
    if content.isEmpty then []
    else
      let align_word := alignWordOf inherited_align
      [("<p align=\"".data) ++ align_word ++ ("\">".data) ++ content ++ ("</p>".data)]
  | .elem nameRaw attrs children, inherited_align =>
    let name := lowerL nameRaw
    let node_align := resolved_align attrs inherited_align
    let align_attr := align_attr_of node_align
    if name = ("div".data) then
      let child_blocks := render_blocks_children children node_align
      if ¬child_blocks.isEmpty then
        if ¬align_attr.isEmpty then
          child_blocks.map (fun block => ("<div".data) ++ align_attr ++ (">".data) ++ block ++ ("</div>".data))
        else child_blocks
      else fallback_para align_attr children
    else if name = ("p".data) ∨ name = ("section".data) ∨ name = ("article".data) then
      fallback_para align_attr children
    else if name = ("h1".data) ∨ name = ("h2".data) ∨ name = ("h3".data) ∨ name = ("h4".data) then
      let inner := pyStrip (render_inline_children children)
      if ¬inner.isEmpty then
        [("<".data) ++ name ++ align_attr ++ (">".data) ++ inner ++ ("</".data) ++ name ++ (">".data)]
      else []
    else if name = ("blockquote".data) then
      let inner := pyStrip (render_inline_children children)
      if ¬inner.isEmpty then
        [("<blockquote".data) ++ align_attr ++ (">".data) ++ inner ++ ("</blockquote>".data)]
      else []
    else if name = ("ul".data) ∨ name = ("ol".data) then
      let items := li_items children
      if ¬items.isEmpty then
        let wrapper_open := if ¬align_attr.isEmpty then ("<div".data) ++ align_attr ++ (">".data) else []
        let wrapper_close := if ¬align_attr.isEmpty then ("</div>".data) else []
        [wrapper_open ++ ("<".data) ++ name ++ (">".data) ++ joinL items ++ ("</".data) ++ name ++ (">".data) ++ wrapper_close]
      else []
    else if name = ("hr".data) then [("<hr/>".data)]
    else fallback_para align_attr children
/-- The child loop of the div branch. -/
def render_blocks_children : List Node → List Char → List (List Char)
  | [], _ => []
  | c :: cs, a => render_blocks_from_node c a ++ render_blocks_children cs a
end

mutual
/-- Every descendant text node is empty or whitespace-only (the hypothesis of the lossy-safety claim). -/
def all_text_ws : Node → Bool
  | .text s => s.all pyIsSpace
  | .elem _ _ cs => all_text_ws_list cs
def all_text_ws_list : List Node → Bool
  | [] => true
  | c :: cs => all_text_ws c && all_text_ws_list cs
end

mutual
/-- Every descendant text node is empty. -/
def all_text_empty : Node → Bool
  | .text s => s.isEmpty
  | .elem _ _ cs => all_text_empty_list cs
def all_text_empty_list : List Node → Bool
  | [] => true
  | c :: cs => all_text_empty c && all_text_empty_list cs
end

mutual
/-- No descendant element (the node included) is a br, hr or img, the elements that render without any text content. -/
def no_special : Node → Bool
  | .text _ => true
  | .elem n _ cs =>
    !(lowerL n == ("br".data)) && !(lowerL n == ("hr".data)) && !(lowerL n == ("img".data)) && no_special_list cs
def no_special_list : List Node → Bool
  | [] => true
  | c :: cs => no_special c && no_special_list cs
end

/-- No occurrence of the character x. -/
def charAbsent (x : Char) (l : List Char) : Bool := l.all (fun c => c != x)

/-- Every ampersand starts one of the entities inserted by escaping. -/
def ampOk : List Char → Bool
  | [] => true
  | c :: cs =>
    (c != '&' || (isPrefixL ("amp;".data) cs || isPrefixL ("lt;".data) cs || isPrefixL ("gt;".data) cs))
      && ampOk cs

/-- One of the four alignment codes. -/
def validAlign (v : List Char) : Bool :=
  (v == ("L".data)) || (v == ("C".data)) || (v == ("R".data)) || (v == ("J".data))

/-- The ValueError message of extract_story_id. -/
def valueErrMsg : List Char :=
  "Could not detect story ID in URL; please use the canonical story link.".data

/-- Embeds extract_story_id: split the reference on slashes, take the last component that starts with a digit, and keep its text up to the first dash; a ValueError is an error value. -/
def extract_story_id (url : List Char) : Except (List Char) (List Char) :=
  let parts := (splitOnChar '/' url).filter (fun p => !p.isEmpty)
  match parts.reverse.find? (fun p => match p with | [] => false | c :: _ => c.isDigit) with
  | none => Except.error valueErrMsg
  | some frag => Except.ok (frag.takeWhile (fun c => c != '-'))

instance : DecidableEq (Except (List Char) (List Char)) := fun x y =>
  match x, y with
  | .error a, .error b =>
    if h : a = b then isTrue (by rw [h]) else isFalse (fun he => by cases he; exact h rfl)
  | .error _, .ok _ => isFalse (fun he => by cases he)
  | .ok _, .error _ => isFalse (fun he => by cases he)
  | .ok a, .ok b =>
    if h : a = b then isTrue (by rw [h]) else isFalse (fun he => by cases he; exact h rfl)

/-- An externally visible step of a run: an HTTP request or a raised error. -/
inductive RunEvent where
  | netGet (url : List Char)
  | raiseErr (msg : List Char)
deriving DecidableEq

def storytext_url (pid : List Char) : List Char :=
  ("https://www.wattpad.com/apiv2/storytext?id=".data) ++ pid

def titleMsg : List Char := "Couldn't locate the story title on the page.".data

def noPartsMsg : List Char := "Couldn't find any public parts in the table of contents.".data

/-- The part-processing phase of scrape_story_overview followed by the per-part fetch loop of main: each scraped link goes through extract_story_id (raising ends the run); then, if any parts were collected, each part id is fetched over the network. -/
def partsPhase : List (List Char) → List (List Char) → List RunEvent
  | [], ids =>
    if ids.isEmpty then [RunEvent.raiseErr noPartsMsg]
    else ids.reverse.map (fun i => RunEvent.netGet (storytext_url i))
  | u :: us, ids =>
    match extract_story_id u with
    | Except.error m => [RunEvent.raiseErr m]
    | Except.ok i => partsPhase us (i :: ids)

/-- Event-order model of main: scrape_story_overview first issues the HTTP GET of the input url; the parsed page is abstracted by whether a title was found and by the list of part links, which are then processed in program order. -/
def mainEvents (url : List Char) (titleFound : Bool) (partLinks : List (List Char)) : List RunEvent :=
  RunEvent.netGet url :: (if titleFound then partsPhase partLinks [] else [RunEvent.raiseErr titleMsg])

def attrsStyle (s : List Char) : Attrs := ⟨some s, [], none, none, none, none, none⟩

/-- Scenario node: a paragraph whose only descendant text is whitespace, nested under a bold wrapper. -/
def pWsBNode : Node := .elem ("p".data) noAttrs [.elem ("b".data) noAttrs [.text (" ".data)]]

/-- Scenario node: an em tag whose inline style also signals bold weight. -/
def emBoldNode : Node := .elem ("em".data) (attrsStyle ("font-weight: bold".data)) [.text ("x".data)]

/-- Scenario node: a div containing only a line break. -/
def divBrNode : Node := .elem ("div".data) noAttrs [.elem ("br".data) noAttrs []]

/-- Scenario node: a list with a filled item, an empty item, a non-item child, and another filled item. -/
def ulScenarioNode : Node :=
  .elem ("ul".data) noAttrs
    [.elem ("li".data) noAttrs [.text ("One".data)],
     .elem ("li".data) noAttrs [],
     .elem ("div".data) noAttrs [.elem ("li".data) noAttrs [.text ("Three".data)]],
     .elem ("li".data) noAttrs [.text ("Two".data)]]

/-- Scenario node: a centered div with two alignment-free paragraphs. -/
def divCenterPsNode : Node :=
  .elem ("div".data) (attrsStyle ("text-align:center".data))
    [.elem ("p".data) noAttrs [.text ("One".data)],
     .elem ("p".data) noAttrs [.text ("Two".data)]]

/-- Scenario node: a centered div holding an alignment-free div holding an alignment-free paragraph. -/
def divCenterNestedNode : Node :=
  .elem ("div".data) (attrsStyle ("text-align:center".data))
    [.elem ("div".data) noAttrs [.elem ("p".data) noAttrs [.text ("x".data)]]]

/-- Scenario node: an alignment-free div with one paragraph, used under a non-default inherited alignment. -/
def divPlainPNode : Node := .elem ("div".data) noAttrs [.elem ("p".data) noAttrs [.text ("x".data)]]

def leftStyleAttrs : Attrs := attrsStyle ("text-align: left".data)

/-- A story URL whose path has no component starting with a digit. -/
def badStoryUrl : List Char := "https://www.wattpad.com/story/mystory".data

/-- A part link carrying a numeric id. -/
def goodPartLink : List Char := "https://www.wattpad.com/123-chapter-one".data

theorem escape_safe (s : List Char) :
    charAbsent '<' (escapeText s) = true ∧ charAbsent '>' (escapeText s) = true ∧
      ampOk (escapeText s) = true := by
  induction s with
  | nil => exact ⟨rfl, rfl, rfl⟩
  | cons c cs ih =>
    obtain ⟨h1, h2, h3⟩ := ih
    by_cases hc1 : c = '&'
    · subst hc1; exact ⟨h1, h2, h3⟩
    · by_cases hc2 : c = '<'
      · subst hc2; exact ⟨h1, h2, h3⟩
      · by_cases hc3 : c = '>'
        · subst hc3; exact ⟨h1, h2, h3⟩
        · have he : escapeText (c :: cs) = c :: escapeText cs := by
            simp [escapeText, hc1, hc2, hc3]
          rw [he]
          refine ⟨?_, ?_, ?_⟩
          · simpa [charAbsent, hc2] using h1
          · simpa [charAbsent, hc3] using h2
          · simpa [ampOk, hc1] using h3

/-- C1: for every text leaf the inline renderer first normalizes non-breaking spaces, then escapes ampersand, less-than and greater-than (not quotes), then wraps maximal Yi runs in the fallback font tag; the escaped text contains no raw angle bracket and every ampersand starts an inserted entity; the text node "A & B" inside a b element renders to exactly that escaped bold fragment, and a maximal two-character Yi run is wrapped in a single font tag. -/
theorem c1_thm :
    (∀ s : List Char, render_node (.text s) =
      wrap_yi_sequences (escapeText (s.map (fun c => if c = '\xa0' then ' ' else c))))
    ∧ (∀ s : List Char,
        charAbsent '<' (escapeText s) = true ∧ charAbsent '>' (escapeText s) = true ∧
          ampOk (escapeText s) = true)
    ∧ render_node (.elem ("b".data) noAttrs [.text ("A & B".data)]) = ("<b>A &amp; B</b>".data)
    ∧ render_node (.text (['x', 'ꀀ', 'ꀁ', 'y'])) =
        ("x<font face=\"NotoSansYi\">".data ++ ['ꀀ', 'ꀁ'] ++ ("</font>y".data)) := by
  refine ⟨?_, escape_safe, by decide, by decide⟩
  intro s
  cases s with
  | nil => rfl
  | cons c cs => rfl

theorem render_node_empty_of : ∀ n : Node, no_special n = true → all_text_empty n = true →
    render_node n = [] := by
  intro n
  induction n using Node.rec
    (motive_2 := fun l => no_special_list l = true → all_text_empty_list l = true →
      render_children l = []) with
  | text s =>
    intros
    rename_i h2
    simp only [all_text_empty] at h2
    simp [render_node, h2]
  | elem nameRaw attrs children ih =>
    intros
    rename_i h1 h2
    simp only [no_special, Bool.and_eq_true, Bool.not_eq_true', beq_eq_false_iff_ne] at h1
    obtain ⟨⟨⟨hbr, hhr⟩, himg⟩, hcs⟩ := h1
    simp only [all_text_empty] at h2
    have hinner : render_children children = [] := ih hcs h2
    simp [render_node, hinner, hbr, hhr, himg]
  | nil => rfl
  | cons c cs ihc ihcs =>
    rename_i h1 h2
    simp only [no_special_list, Bool.and_eq_true] at h1
    simp only [all_text_empty_list, Bool.and_eq_true] at h2
    simp [render_children, ihc h1.1 h2.1, ihcs h1.2 h2.2]

theorem render_children_empty_of : ∀ l : List Node, no_special_list l = true →
    all_text_empty_list l = true → render_children l = [] := by
  intro l
  induction l with
  | nil => intros; rfl
  | cons c cs ih =>
    intro h1 h2
    simp only [no_special_list, Bool.and_eq_true] at h1
    simp only [all_text_empty_list, Bool.and_eq_true] at h2
    simp [render_children, render_node_empty_of c h1.1 h2.1, ih h1.2 h2.2]

theorem li_items_empty_of : ∀ l : List Node, no_special_list l = true →
    all_text_empty_list l = true → li_items l = [] := by
  intro l
  induction l with
  | nil => intros; rfl
  | cons c cs ih =>
    intro h1 h2
    simp only [no_special_list, Bool.and_eq_true] at h1
    simp only [all_text_empty_list, Bool.and_eq_true] at h2
    cases c with
    | text s => simp [li_items, ih h1.2 h2.2]
    | elem n a ccs =>
      have hn1 := h1.1
      simp only [no_special, Bool.and_eq_true] at hn1
      have hn2 := h2.1
      simp only [all_text_empty] at hn2
      have hr : render_children ccs = [] := render_children_empty_of ccs hn1.2 hn2
      by_cases hli : n = ("li".data)
      · simp [li_items, hli, render_inline_children, hr, pyStrip, ih h1.2 h2.2]
      · simp [li_items, hli, ih h1.2 h2.2]

/-- C2 (amended): every node with no br, hr or img descendant and all of whose descendant text nodes are empty produces zero Blocks, for every inherited alignment. -/
theorem c2_thm : ∀ (n : Node) (a : List Char), no_special n = true → all_text_empty n = true →
    render_blocks_from_node n a = [] := by
  intro n
  induction n using Node.rec
    (motive_2 := fun l => ∀ a, no_special_list l = true → all_text_empty_list l = true →
      render_blocks_children l a = []) with
  | text s =>
    intros
    rename_i h2
    simp only [all_text_empty] at h2
    simp [render_blocks_from_node, render_node, h2, pyStrip]
  | elem nameRaw attrs children ih =>
    intros
    rename_i a h1 h2
    simp only [no_special, Bool.and_eq_true, Bool.not_eq_true', beq_eq_false_iff_ne] at h1
    obtain ⟨⟨⟨hbr, hhr⟩, himg⟩, hcs⟩ := h1
    simp only [all_text_empty] at h2
    have hrc : render_children children = [] := render_children_empty_of children hcs h2
    have hcb : ∀ al, render_blocks_children children al = [] := fun al => ih al hcs h2
    have hli : li_items children = [] := li_items_empty_of children hcs h2
    simp [render_blocks_from_node, fallback_para, render_inline_children, hrc, hcb, hli,
      pyStrip, hhr]
  | nil => rfl
  | cons c cs ihc ihcs =>
    rename_i a h1 h2
    simp only [no_special_list, Bool.and_eq_true] at h1
    simp only [all_text_empty_list, Bool.and_eq_true] at h2
    simp [render_blocks_children, ihc a h1.1 h2.1, ihcs a h1.2 h2.2]

theorem c2_witness : render_blocks_from_node (.elem ("p".data) noAttrs []) ("L".data) = [] :=
  c2_thm (.elem ("p".data) noAttrs []) ("L".data) (by decide) (by decide)

theorem c2_cex :
    all_text_ws pWsBNode = true
    ∧ render_blocks_from_node pWsBNode ("L".data) = [("<p><b> </b></p>".data)]
    ∧ (render_blocks_from_node pWsBNode ("L".data)).isEmpty = false :=
  ⟨by decide, by decide, by decide⟩

theorem c3_cex :
    render_node emBoldNode = ("<b><i>x</i></b>".data)
    ∧ ((render_node emBoldNode) == ("<i><b>x</b></i>".data)) = false :=
  ⟨by decide, by decide⟩

/-- C3 (amended): wrappers are applied in the fixed source sequence tag-based bold, italic, underline, sup/sub, then style-based bold, italic, underline, then class-based ones, then link, font-face, font-color, so the nesting depends on which source triggered each condition; when bold, italic and underline all come from the inline style of an anchor with a destination and a face attribute, the output nests font outermost, then link, then underline, italic, and bold innermost (sup/sub cannot co-occur with the link condition, as both are determined by the tag name). -/
theorem c3_thm :
    ∀ (st href fc : List Char) (children : List Node),
      containsSub ("font-weight".data) (lowerL st) = true →
      containsSub ("bold".data) (lowerL st) = true →
      containsSub ("font-style".data) (lowerL st) = true →
      containsSub ("italic".data) (lowerL st) = true →
      containsSub ("text-decoration".data) (lowerL st) = true →
      containsSub ("underline".data) (lowerL st) = true →
      href.isEmpty = false → fc.isEmpty = false →
      (render_children children).isEmpty = false →
      render_node (.elem ("a".data) ⟨some st, [], none, some href, some fc, none, none⟩ children) =
        ("<font face=\"".data) ++ escapeAttr fc ++ ("\">".data) ++
          ("<a href=\"".data) ++ escapeAttr href ++ ("\">".data) ++
          tagWrap ("u".data) (tagWrap ("i".data) (tagWrap ("b".data) (render_children children))) ++
          ("</a></font>".data) := by
  intro st href fc children h1 h2 h3 h4 h5 h6 h7 h8 h9
  simp +decide [render_node, tagWrap, truthy, orEmpty, h1, h2, h3, h4, h5, h6, h7, h8, h9,
    List.append_assoc]

theorem c3_witness :
    render_node (.elem ("a".data)
        ⟨some ("font-weight: bold; font-style: italic; text-decoration: underline".data),
         [], none, some ("u".data), some ("F".data), none, none⟩ [.text ("x".data)]) =
      ("<font face=\"".data) ++ escapeAttr ("F".data) ++ ("\">".data) ++
        ("<a href=\"".data) ++ escapeAttr ("u".data) ++ ("\">".data) ++
        tagWrap ("u".data) (tagWrap ("i".data) (tagWrap ("b".data)
          (render_children [.text ("x".data)]))) ++
        ("</a></font>".data) :=
  c3_thm _ _ _ _ (by decide) (by decide) (by decide) (by decide) (by decide) (by decide)
    (by decide) (by decide) (by decide)

theorem c4_cex :
    render_blocks_from_node divPlainPNode ("C".data) =
      [("<div align=\"center\"><p align=\"center\">x</p></div>".data)]
    ∧ ((render_blocks_from_node divPlainPNode ("C".data)) ==
        render_blocks_children [.elem ("p".data) noAttrs [.text ("x".data)]] ("C".data)) = false :=
  ⟨by decide, by decide⟩

/-- C4 (amended): a div resolves its alignment with fallback to the inherited one, renders its children under the resolved alignment, and, when child Blocks exist, wraps each of them in an alignment-carrying container if and only if the resolved alignment is not the default left code - not if and only if it differs from the inherited alignment; when the resolved alignment is left the child Blocks pass through unwrapped. -/
theorem c4_thm :
    ∀ (attrs : Attrs) (children : List Node) (a : List Char),
      (resolved_align attrs a = ("L".data) →
        (render_blocks_children children ("L".data)).isEmpty = false →
        render_blocks_from_node (.elem ("div".data) attrs children) a =
          render_blocks_children children ("L".data))
      ∧ (∀ al : List Char,
          (al = ("C".data) ∨ al = ("R".data) ∨ al = ("J".data)) → resolved_align attrs a = al →
          (render_blocks_children children al).isEmpty = false →
          (align_attr_of al).isEmpty = false ∧
            render_blocks_from_node (.elem ("div".data) attrs children) a =
              (render_blocks_children children al).map
                (fun block =>
                  ("<div".data) ++ align_attr_of al ++ (">".data) ++ block ++ ("</div>".data))) := by
  intro attrs children a
  constructor
  · intro h1 h2
    simp +decide [render_blocks_from_node, h1, h2, align_attr_of]
  · intro al hal h1 h2
    rcases hal with h | h | h <;> subst h <;>
      exact ⟨by decide, by simp +decide [render_blocks_from_node, h1, h2, align_attr_of]⟩

theorem c4_witness :
    render_blocks_from_node (.elem ("div".data) noAttrs
        [.elem ("p".data) noAttrs [.text ("x".data)]]) ("L".data) =
      render_blocks_children [.elem ("p".data) noAttrs [.text ("x".data)]] ("L".data) :=
  (c4_thm noAttrs [.elem ("p".data) noAttrs [.text ("x".data)]] ("L".data)).1
    (by decide) (by decide)

/-- C5: a node's own alignment overrides the inherited one only when it extracts to something other than the left code, so an extracted left (including an explicit text-align left) keeps the inherited value; alignment-free descendants inherit transitively, and both paragraphs of a centered div resolve to centered. -/
theorem c5_thm :
    (∀ (attrs : Attrs) (a : List Char), extract_alignment attrs = ("L".data) →
      resolved_align attrs a = a)
    ∧ extract_alignment leftStyleAttrs = ("L".data)
    ∧ resolved_align leftStyleAttrs ("C".data) = ("C".data)
    ∧ render_blocks_from_node divCenterPsNode ("L".data) =
        [("<div align=\"center\"><p align=\"center\">One</p></div>".data),
         ("<div align=\"center\"><p align=\"center\">Two</p></div>".data)]
    ∧ render_blocks_from_node divCenterNestedNode ("L".data) =
        [("<div align=\"center\"><div align=\"center\"><p align=\"center\">x</p></div></div>".data)] := by
  refine ⟨?_, by decide, by decide, by decide, by decide⟩
  intro attrs a h
  simp [resolved_align, h]

theorem c5_witness : resolved_align noAttrs ("C".data) = ("C".data) :=
  c5_thm.1 noAttrs ("C".data) (by decide)

theorem lookupAV_valid : ∀ v w : List Char, lookupAV v = some w → validAlign w = true := by
  intro v w h
  unfold lookupAV at h
  split_ifs at h <;> cases h <;> decide

theorem styleAlignScan_valid : ∀ (segs : List (List Char)) (v : List Char),
    styleAlignScan segs = some v → validAlign v = true := by
  intro segs
  induction segs with
  | nil => intro v h; cases h
  | cons s rest ih =>
    intro v h
    simp only [styleAlignScan] at h
    by_cases hp : isPrefixL ("text-align".data) (pyStrip s) = true
    · rw [if_pos hp] at h
      cases hl : lookupAV (pyStrip (afterColon (pyStrip s))) with
      | some w =>
        simp only [hl] at h
        cases h
        exact lookupAV_valid _ _ hl
      | none =>
        simp only [hl] at h
        exact ih v h
    · rw [if_neg hp] at h
      exact ih v h

theorem classScan_valid : ∀ ls : List (List Char), validAlign (classScan ls) = true := by
  intro ls
  induction ls with
  | nil => decide
  | cons c rest ih =>
    simp only [classScan]
    split_ifs <;> first | decide | exact ih

theorem extract_alignment_valid : ∀ attrs : Attrs, validAlign (extract_alignment attrs) = true := by
  intro attrs
  simp only [extract_alignment]
  cases hs : styleAlignScan (splitOnChar ';' (lowerL (orEmpty attrs.style))) with
  | some v => simp only [hs]; exact styleAlignScan_valid _ v hs
  | none =>
    simp only [hs]
    cases hl : lookupAV (lowerL (orEmpty attrs.align)) with
    | some v => simp only [hl]; exact lookupAV_valid _ v hl
    | none => simp only [hl]; exact classScan_valid _

/-- C6: the alignment resolver prefers a recognized inline-style text-align value, then a recognized legacy align attribute, then a case-insensitive class-token scan matching the substrings center, right, justify in that order within each token, and otherwise keeps the inherited value; the extracted code is always one of the four permitted values and the resolver never fails. -/
theorem c6_thm :
    extract_alignment ⟨some ("text-align: right".data), [("center".data)], some ("center".data),
        none, none, none, none⟩ = ("R".data)
    ∧ extract_alignment ⟨some ("text-align: top;color:red".data), [("center".data)],
        some ("justify".data), none, none, none, none⟩ = ("J".data)
    ∧ extract_alignment ⟨none, [("x".data), ("media-justify-center".data)], none, none, none,
        none, none⟩ = ("C".data)
    ∧ extract_alignment ⟨none, [("push-Right".data)], none, none, none, none, none⟩ = ("R".data)
    ∧ (∀ a : List Char, resolved_align noAttrs a = a)
    ∧ (∀ attrs : Attrs, validAlign (extract_alignment attrs) = true)
    ∧ (∀ (attrs : Attrs) (a : List Char),
        resolved_align attrs a = a ∨ resolved_align attrs a = extract_alignment attrs) := by
  refine ⟨by decide, by decide, by decide, by decide, ?_, extract_alignment_valid, ?_⟩
  · intro a
    have h : extract_alignment noAttrs = ("L".data) := by decide
    simp [resolved_align, h]
  · intro attrs a
    by_cases h : extract_alignment attrs = ("L".data)
    · left; simp [resolved_align, h]
    · right; simp [resolved_align, h]

/-- C7: for a list element only direct list-item children with non-empty trimmed inline content become items, in source order; when at least one item exists exactly one list Block is emitted, wrapped in an alignment container only when the resolved alignment is non-default; the scenario list with items One, an empty item and Two yields exactly the two items One and Two. -/
theorem c7_thm :
    render_blocks_from_node ulScenarioNode ("L".data) =
      [("<ul><li>One</li><li>Two</li></ul>".data)]
    ∧ (∀ (attrs : Attrs) (children : List Node) (a : List Char),
        (li_items children).isEmpty = false →
        (render_blocks_from_node (.elem ("ul".data) attrs children) a).length = 1)
    ∧ (∀ (attrs : Attrs) (children : List Node) (a : List Char),
        resolved_align attrs a = ("L".data) →
        render_blocks_from_node (.elem ("ul".data) attrs children) a =
          (if (li_items children).isEmpty then []
           else [("<ul>".data) ++ joinL (li_items children) ++ ("</ul>".data)]))
    ∧ (∀ (attrs : Attrs) (children : List Node) (a : List Char),
        resolved_align attrs a = ("C".data) →
        render_blocks_from_node (.elem ("ul".data) attrs children) a =
          (if (li_items children).isEmpty then []
           else [("<div align=\"center\"><ul>".data) ++ joinL (li_items children) ++
             ("</ul></div>".data)])) := by
  refine ⟨by decide, ?_, ?_, ?_⟩
  · intro attrs children a h
    simp +decide [render_blocks_from_node, h]
  · intro attrs children a h
    simp +decide [render_blocks_from_node, h, align_attr_of,
      show lowerL ("ul".data) = ("ul".data) from rfl]
  · intro attrs children a h
    simp +decide [render_blocks_from_node, h, align_attr_of, alignWordOf,
      show lowerL ("ul".data) = ("ul".data) from rfl]

theorem c7_witness :
    (render_blocks_from_node (.elem ("ul".data) noAttrs
        [.elem ("li".data) noAttrs [.text ("x".data)]]) ("L".data)).length = 1 :=
  c7_thm.2.1 noAttrs [.elem ("li".data) noAttrs [.text ("x".data)]] ("L".data) (by decide)

/-- C9: a non-empty text leaf at block level always emits a paragraph Block carrying an explicit align attribute, spelling out align left under the default inheritance, whereas an element-derived Block omits the align attribute whenever the resolved alignment is the left code. -/
theorem c9_thm :
    (∀ (s a : List Char), render_blocks_from_node (.text s) a =
      (if (pyStrip (render_node (.text s))).isEmpty then []
       else [("<p align=\"".data) ++ alignWordOf a ++ ("\">".data) ++
         pyStrip (render_node (.text s)) ++ ("</p>".data)]))
    ∧ alignWordOf ("L".data) = ("left".data)
    ∧ (∀ (attrs : Attrs) (children : List Node) (a : List Char),
        resolved_align attrs a = ("L".data) →
        render_blocks_from_node (.elem ("p".data) attrs children) a =
          (if (pyStrip (render_inline_children children)).isEmpty then []
           else [("<p>".data) ++ pyStrip (render_inline_children children) ++ ("</p>".data)]))
    ∧ (∀ (attrs : Attrs) (children : List Node) (a : List Char),
        resolved_align attrs a = ("L".data) →
        render_blocks_from_node (.elem ("h2".data) attrs children) a =
          (if (pyStrip (render_inline_children children)).isEmpty then []
           else [("<h2>".data) ++ pyStrip (render_inline_children children) ++ ("</h2>".data)]))
    ∧ (∀ (attrs : Attrs) (children : List Node) (a : List Char),
        resolved_align attrs a = ("L".data) →
        render_blocks_from_node (.elem ("blockquote".data) attrs children) a =
          (if (pyStrip (render_inline_children children)).isEmpty then []
           else [("<blockquote>".data) ++ pyStrip (render_inline_children children) ++
             ("</blockquote>".data)]))
    ∧ (∀ (attrs : Attrs) (children : List Node) (a : List Char),
        resolved_align attrs a = ("L".data) →
        render_blocks_from_node (.elem ("span".data) attrs children) a =
          (if (pyStrip (render_inline_children children)).isEmpty then []
           else [("<p>".data) ++ pyStrip (render_inline_children children) ++ ("</p>".data)]))
    ∧ render_blocks_from_node (.text ("x".data)) ("L".data) = [("<p align=\"left\">x</p>".data)]
    ∧ render_blocks_from_node (.elem ("p".data) noAttrs [.text ("x".data)]) ("L".data) =
        [("<p>x</p>".data)] := by
  refine ⟨fun s a => rfl, by decide, ?_, ?_, ?_, ?_, by decide, by decide⟩ <;>
    intro attrs children a h <;>
    simp +decide [render_blocks_from_node, fallback_para, h, align_attr_of,
      render_inline_children, show lowerL ("h2".data) = ("h2".data) from rfl]

theorem c9_witness :
    render_blocks_from_node (.elem ("p".data) noAttrs [.text ("y".data)]) ("L".data) =
      (if (pyStrip (render_inline_children [.text ("y".data)])).isEmpty then []
       else [("<p>".data) ++ pyStrip (render_inline_children [.text ("y".data)]) ++ ("</p>".data)]) :=
  c9_thm.2.2.1 noAttrs [.text ("y".data)] ("L".data) (by decide)

/-- C10: a div whose children produce zero child Blocks falls through to the generic fallback rule, rendering the div's own inline content as one paragraph Block when non-empty after trimming; a div containing only a br yields one paragraph Block holding a line-break tag. -/
theorem c10_thm :
    (∀ (attrs : Attrs) (children : List Node) (a : List Char),
      (render_blocks_children children (resolved_align attrs a)).isEmpty = true →
      render_blocks_from_node (.elem ("div".data) attrs children) a =
        fallback_para (align_attr_of (resolved_align attrs a)) children)
    ∧ render_blocks_from_node divBrNode ("L".data) = [("<p><br/></p>".data)] := by
  refine ⟨?_, by decide⟩
  intro attrs children a h
  simp +decide [render_blocks_from_node, h]

theorem c10_witness :
    render_blocks_from_node divBrNode ("L".data) =
      fallback_para (align_attr_of (resolved_align noAttrs ("L".data)))
        [.elem ("br".data) noAttrs []] :=
  c10_thm.1 noAttrs [.elem ("br".data) noAttrs []] ("L".data) (by decide)

theorem c8_cex :
    extract_story_id badStoryUrl = Except.error valueErrMsg
    ∧ mainEvents badStoryUrl true [badStoryUrl] =
        [RunEvent.netGet badStoryUrl, RunEvent.raiseErr valueErrMsg]
    ∧ mainEvents badStoryUrl true [goodPartLink] =
        [RunEvent.netGet badStoryUrl, RunEvent.netGet (storytext_url ("123".data))] :=
  ⟨by decide, by decide, by decide⟩

/-- C8 (amended): the missing-identifier check does not precede network activity: the overview request is always the first event of a run, for every input reference; extract_story_id runs on the part links scraped from the fetched page, so a link without a numeric component aborts the run only after the overview request. -/
theorem c8_thm :
    (∀ (url : List Char) (t : Bool) (links : List (List Char)),
      (mainEvents url t links).head? = some (RunEvent.netGet url))
    ∧ (∀ (url u : List Char) (us : List (List Char)) (m : List Char),
        extract_story_id u = Except.error m →
        mainEvents url true (u :: us) = [RunEvent.netGet url, RunEvent.raiseErr m]) := by
  refine ⟨fun url t links => rfl, ?_⟩
  intro url u us m h
  simp [mainEvents, partsPhase, h]

theorem c8_witness :
    mainEvents ("x".data) true [("nodigits".data)] =
      [RunEvent.netGet ("x".data), RunEvent.raiseErr valueErrMsg] :=
  c8_thm.2 ("x".data) ("nodigits".data) [] valueErrMsg (by decide)
